import Mathlib

set_option maxHeartbeats 1000000
set_option maxRecDepth 4000

/-!
Verification development for the `inventory_api` repository (Go).

The Go sources are shallowly embedded as executable Lean definitions:

* machine integers are modelled as `Int`/`Nat` (no claim depends on overflow);
* Go strings and byte strings are modelled as `List Nat` (byte values);
* Go maps are modelled as association lists with Go map read/write semantics;
* the relational store is modelled as a `List Item` given in the scan order
  produced by the query's `ORDER BY` clause, and fallible operations return
  `Except`/`Option`.
-/

/-! ## Association lists (Go map reads and writes) -/

/-- Go map read: first binding for the key, if any. -/
def alookup {κ α : Type} [DecidableEq κ] : List (κ × α) → κ → Option α
  | [], _ => none
  | (k, v) :: t, key => if k = key then some v else alookup t key

/-- Go map write: replace the binding in place, or append a fresh one. -/
def aset {κ α : Type} [DecidableEq κ] : List (κ × α) → κ → α → List (κ × α)
  | [], key, v => [(key, v)]
  | (k, v0) :: t, key, v => if k = key then (key, v) :: t else (k, v0) :: aset t key v

theorem alookup_aset_self {κ α : Type} [DecidableEq κ] (m : List (κ × α)) (key : κ) (v : α) :
    alookup (aset m key v) key = some v := by
  induction m with
  | nil => simp [aset, alookup]
  | cons h t ih =>
    obtain ⟨k, v0⟩ := h
    by_cases hk : k = key
    · simp [aset, hk, alookup]
    · simp [aset, hk, alookup, ih]

/-! ## Keyed rate limiter (src/utils/rate_limiter.go)

The per-key limiter is `golang.org/x/time/rate.Limiter`, a token bucket with
burst capacity `burst` that is full when first used.  All claims about the
limiter are about calls in rapid succession ("before any refill interval
elapses"), so the bucket is modelled at a single instant: no tokens are
replenished between calls, and each admitted call consumes exactly one token.
Token counts are therefore exact naturals. -/

/-- Token bucket state of one `rate.Limiter` at a fixed instant. -/
structure Bucket where
  tokens : Nat
deriving DecidableEq

/-- `RateLimiter` struct: key-to-bucket map plus process-wide rate and burst. -/
structure RateLimiter where
  limiters : List (String × Bucket)
  rps : Nat
  burst : Nat
deriving DecidableEq

/-- `NewRateLimiter`: empty map, configured rate and burst. -/
def NewRateLimiter (requestsPerSecond burst : Nat) : RateLimiter :=
  ⟨[], requestsPerSecond, burst⟩

/-- `GetLimiter`: look the key up; on a miss lazily construct a limiter at full
burst capacity and store it. Returns the bucket together with the updated state. -/
def GetLimiter (rl : RateLimiter) (key : String) : Bucket × RateLimiter :=
  match alookup rl.limiters key with
  | some b => (b, rl)
  | none =>
    let b : Bucket := ⟨rl.burst⟩
    (b, { rl with limiters := aset rl.limiters key b })

/-- `rate.Limiter.Allow` at a fixed instant: consume one token if available. -/
def bucketAllow (b : Bucket) : Bool × Bucket :=
  if 1 ≤ b.tokens then (true, ⟨b.tokens - 1⟩) else (false, b)

/-- `Allow`: `GetLimiter` then one token-bucket admission check; the consumed
bucket is written back (the Go bucket is shared by pointer). -/
def Allow (rl : RateLimiter) (key : String) : Bool × RateLimiter :=
  let p := GetLimiter rl key
  let q := bucketAllow p.1
  (q.1, { p.2 with limiters := aset p.2.limiters key q.2 })

/-- Results of `n` successive `Allow` calls for one key, threading the state. -/
def allowSeq (rl : RateLimiter) (key : String) : Nat → List Bool
  | 0 => []
  | n + 1 =>
    let p := Allow rl key
    p.1 :: allowSeq p.2 key n

theorem Allow_present (rl : RateLimiter) (key : String) (t : Nat)
    (h : alookup rl.limiters key = some ⟨t⟩) :
    Allow rl key = (decide (1 ≤ t), { rl with limiters := aset rl.limiters key ⟨t - 1⟩ }) := by
  by_cases ht : 1 ≤ t
  · simp [Allow, GetLimiter, h, bucketAllow, ht]
  · have ht0 : t = 0 := by omega
    subst ht0
    simp [Allow, GetLimiter, h, bucketAllow]

theorem allowSeq_present (n : Nat) : ∀ (rl : RateLimiter) (key : String) (t : Nat),
    alookup rl.limiters key = some ⟨t⟩ →
    allowSeq rl key n = List.replicate (min n t) true ++ List.replicate (n - t) false := by
  induction n with
  | zero => intro rl key t _; simp [allowSeq]
  | succ n ih =>
    intro rl key t h
    rw [allowSeq, Allow_present rl key t h]
    have hlook : alookup (aset rl.limiters key (⟨t - 1⟩ : Bucket)) key = some ⟨t - 1⟩ :=
      alookup_aset_self _ _ _
    rw [ih _ key (t - 1) hlook]
    by_cases ht : 1 ≤ t
    · have h1 : min (n + 1) t = min n (t - 1) + 1 := by omega
      have h2 : (n + 1) - t = n - (t - 1) := by omega
      simp [ht, h1, h2, List.replicate_succ]
    · have ht0 : t = 0 := by omega
      subst ht0
      simp [List.replicate_succ]

/-- C3. On first reference to a key the limiter map lazily gains a bucket at
full burst capacity, and `Allow` for that key returns `true` for the first
`burst` calls in rapid succession and `false` on the `(burst+1)`-th call. -/
theorem allow_burst_then_reject (rl : RateLimiter) (key : String)
    (h : alookup rl.limiters key = none) :
    (GetLimiter rl key).1 = ⟨rl.burst⟩ ∧
    allowSeq rl key (rl.burst + 1) = List.replicate rl.burst true ++ [false] := by
  constructor
  · simp [GetLimiter, h]
  · rw [allowSeq]
    have hA : Allow rl key =
        (decide (1 ≤ rl.burst),
          { rl with limiters := aset (aset rl.limiters key ⟨rl.burst⟩) key ⟨rl.burst - 1⟩ }) := by
      by_cases hb : 1 ≤ rl.burst
      · simp [Allow, GetLimiter, h, bucketAllow, hb]
      · have hb0 : rl.burst = 0 := by omega
        simp [Allow, GetLimiter, h, bucketAllow, hb0]
    rw [hA]
    have hlook : alookup (aset (aset rl.limiters key (⟨rl.burst⟩ : Bucket)) key
        (⟨rl.burst - 1⟩ : Bucket)) key = some ⟨rl.burst - 1⟩ := alookup_aset_self _ _ _
    rw [allowSeq_present rl.burst _ key (rl.burst - 1) hlook]
    by_cases hb : 1 ≤ rl.burst
    · have h1 : min rl.burst (rl.burst - 1) = rl.burst - 1 := by omega
      have h2 : rl.burst - (rl.burst - 1) = 1 := by omega
      have h3 : rl.burst = (rl.burst - 1) + 1 := by omega
      have hd : decide (1 ≤ rl.burst) = true := by simp [hb]
      simp only [hd, h1, h2, List.replicate_one]
      rw [h3, List.replicate_succ]
      simp
    · have hb0 : rl.burst = 0 := by omega
      simp [hb0]

/-- Witness for C3: a fresh limiter with burst 5 admits exactly 5 rapid calls. -/
theorem allow_burst_then_reject_witness :
    (GetLimiter (NewRateLimiter 1 5) "10.0.0.1").1 = ⟨5⟩ ∧
    allowSeq (NewRateLimiter 1 5) "10.0.0.1" 6 =
      List.replicate 5 true ++ [false] :=
  allow_burst_then_reject (NewRateLimiter 1 5) "10.0.0.1" rfl

/-- `CleanupOldLimiters` (one sweep of its background loop): the loop body
iterates over the keys of the map and performs no mutation
(`for key := range rl.limiters { _ = key }`), modelled as a fold that visits
every entry and leaves the accumulated map unchanged. `maxAge` is only the
ticker interval. -/
def CleanupOldLimiters (rl : RateLimiter) (maxAge : Nat) : RateLimiter :=
  { rl with limiters := rl.limiters.foldl (fun acc _ => acc) rl.limiters }

theorem foldl_const_acc {α β : Type} (l : List α) (init : β) :
    l.foldl (fun acc _ => acc) init = init := by
  induction l generalizing init with
  | nil => rfl
  | cons h t ih => simp [List.foldl, ih]

/-- C10. A sweep of `CleanupOldLimiters` removes nothing: for every map state
and every `maxAge` it returns the rate limiter exactly as it found it. -/
theorem cleanupOldLimiters_noop (rl : RateLimiter) (maxAge : Nat) :
    CleanupOldLimiters rl maxAge = rl := by
  simp [CleanupOldLimiters, foldl_const_acc]

/-! ## Item data model (models/item.go)

Column values of the `uuid` primary key and the timestamp columns are modelled
as byte strings (`List Nat`) carrying the store's total column order, modelled
as lexicographic byte order (exact for the canonical fixed-width uuid text
form; the claims below never rely on timestamp order agreeing with wall-clock
arithmetic, only on it being a total order with decidable equality).
`Price` is a scaled integer: no claim depends on float semantics. -/

/-- `models.Item`: one row of the `items` table (gorm soft deletion via
`DeletedAt`). -/
structure Item where
  ID : List Nat
  Name : List Nat
  Stock : Int
  Price : Int
  CreatedAt : List Nat
  UpdatedAt : List Nat
  DeletedAt : Option (List Nat)
deriving DecidableEq

/-- Lexicographic order on byte strings: the store's order on the modelled
column values. -/
def ltBytes : List Nat → List Nat → Bool
  | [], [] => false
  | [], _ :: _ => true
  | _ :: _, [] => false
  | a :: s, b :: t => if a < b then true else if b < a then false else ltBytes s t

/-- ASCII lower-casing of one byte, for the `ILIKE` name filter. -/
def lowerByte (b : Nat) : Nat :=
  if 65 ≤ b ∧ b ≤ 90 then b + 32 else b

/-- Does `hay` start with `pat`? -/
def startsWith : List Nat → List Nat → Bool
  | _, [] => true
  | [], _ :: _ => false
  | a :: s, b :: t => a = b && startsWith s t

/-- Does `pat` occur contiguously inside `hay`? (`ILIKE '%pat%'` with the
pattern taken literally; no claim uses wildcard characters inside the filter.) -/
def containsSeq (hay pat : List Nat) : Bool :=
  match hay with
  | [] => startsWith [] pat
  | _ :: t => startsWith hay pat || containsSeq t pat

/-- `models.FilterRequest`. -/
structure FilterRequest where
  Name : List Nat
  MinStock : Option Int
  MinPrice : Option Int
  MaxPrice : Option Int
deriving DecidableEq

/-- The WHERE conditions built from the filters in `GetItems` (lines 139-152):
name `ILIKE %name%`, `stock >= min_stock`, `price >= min_price`,
`price <= max_price`, each only when present. -/
def matchesFilters (f : FilterRequest) (it : Item) : Bool :=
  (decide (f.Name = []) || containsSeq (it.Name.map lowerByte) (f.Name.map lowerByte))
  && (match f.MinStock with | none => true | some v => decide (v ≤ it.Stock))
  && (match f.MinPrice with | none => true | some v => decide (v ≤ it.Price))
  && (match f.MaxPrice with | none => true | some v => decide (it.Price ≤ v))

/-- `CursorData`: decoded cursor payload (identifier and creation timestamp of
the last row of the previous page). -/
structure CursorData where
  ID : List Nat
  CreatedAt : List Nat
deriving DecidableEq

/-- The range predicate appended when a cursor is supplied (lines 179-180):
`(created_at < ?) OR (created_at = ? AND id < ?)`. -/
def cursorPred (cd : CursorData) (it : Item) : Bool :=
  ltBytes it.CreatedAt cd.CreatedAt
  || (decide (it.CreatedAt = cd.CreatedAt) && ltBytes it.ID cd.ID)

/-- Full row predicate of the paged fetch: gorm's implicit
`deleted_at IS NULL`, the filters, and the cursor range predicate if present. -/
def rowMatches (f : FilterRequest) (cur : Option CursorData) (it : Item) : Bool :=
  decide (it.DeletedAt = none) && matchesFilters f it
  && (match cur with | none => true | some cd => cursorPred cd it)

/-- Result of `GetItems` before the cursor is wire-encoded
(`models.PaginatedResponse` with the cursor still in decoded form). -/
structure ListResult where
  items : List Item
  nextCursorData : Option CursorData
  hasMore : Bool
  total : Nat
deriving DecidableEq

/-- Effective page size (lines 183-186): default 10, overridden only by a
positive requested limit. -/
def effLimit (limitReq : Int) : Nat :=
  if 0 < limitReq then limitReq.toNat else 10

/-- The pagination engine of `GetItems` (lines 136-212) after cursor decoding.

`rows` is the `items` table enumerated in the scan order produced by the
query's `ORDER BY` clause; the WHERE conditions are applied to it, `limit + 1`
rows are fetched, the page is trimmed to `limit` with `has_more` set exactly
when more than `limit` rows were returned, and the cursor of the last retained
row is emitted. `total` counts the filtered rows before the cursor predicate
is appended (the `Count` at line 165 runs before line 179). -/
def getItemsCore (rows : List Item) (f : FilterRequest) (cur : Option CursorData)
    (limitReq : Int) : ListResult :=
  let total := (rows.filter (fun it => decide (it.DeletedAt = none) && matchesFilters f it)).length
  let limit := effLimit limitReq
  let fetched := (rows.filter (rowMatches f cur)).take (limit + 1)
  let hasMore := decide (limit < fetched.length)
  let items := if limit < fetched.length then fetched.take limit else fetched
  let nextCursorData :=
    if hasMore = true ∧ items ≠ [] then
      items.getLast?.map (fun it => CursorData.mk it.ID it.CreatedAt)
    else none
  ⟨items, nextCursorData, hasMore, total⟩

/-- C1. For a valid limit in `[1,100]` and any dataset, filters and cursor,
the page holds at most `limit` items, and `has_more` is `true` exactly when an
`(limit+1)`-th row matching the predicates exists beyond the returned page. -/
theorem getItems_limit_hasMore (rows : List Item) (f : FilterRequest)
    (cur : Option CursorData) (limitReq : Int)
    (h1 : 1 ≤ limitReq) (h2 : limitReq ≤ 100) :
    (getItemsCore rows f cur limitReq).items.length ≤ limitReq.toNat ∧
    ((getItemsCore rows f cur limitReq).hasMore = true ↔
      limitReq.toNat < (rows.filter (rowMatches f cur)).length) := by
  have heff : effLimit limitReq = limitReq.toNat := by
    simp [effLimit]
    omega
  constructor
  · simp only [getItemsCore, heff]
    split
    · simp only [List.length_take]
      omega
    · rename_i hm
      simp only [List.length_take] at hm
      simp only [List.length_take]
      omega
  · simp only [getItemsCore, heff, decide_eq_true_eq, List.length_take]
    omega

/-- Witness for C1 at `limit = 1` on the empty dataset. -/
theorem getItems_limit_hasMore_witness :
    (getItemsCore [] ⟨[], none, none, none⟩ none 1).items.length ≤ (1 : Int).toNat ∧
    ((getItemsCore [] ⟨[], none, none, none⟩ none 1).hasMore = true ↔
      (1 : Int).toNat < (List.filter (rowMatches ⟨[], none, none, none⟩ none) []).length) :=
  getItems_limit_hasMore [] ⟨[], none, none, none⟩ none 1 (by decide) (by decide)

/-! ## C2: keyset pagination over the default sort

The default sort issues only `ORDER BY created_at DESC` (line 161): the scan
order among rows with equal `created_at` is unconstrained, so any enumeration
that is non-increasing on `created_at` is a legal store output. -/

/-- A legal scan order for the default sort: each earlier row's `created_at`
is not below any later row's. -/
def sortedByCreatedAtDesc (rows : List Item) : Prop :=
  List.Pairwise (fun a b => ltBytes a.CreatedAt b.CreatedAt = false) rows

/-- First row of the C2 dataset: id `0x31`, creation timestamp byte `0x74`. -/
def itemA : Item := ⟨[49], [65], 1, 1, [116], [116], none⟩

/-- Second row of the C2 dataset: id `0x32`, same creation timestamp. -/
def itemB : Item := ⟨[50], [66], 1, 1, [116], [116], none⟩

/-- Empty filter request. -/
def noFilter : FilterRequest := ⟨[], none, none, none⟩

/-- C2 fails on the code: with two live rows sharing a creation timestamp and
the store scanning the tie in ascending identifier order — permitted, because
the default sort has no identifier tie-break — page one returns only `itemA`
and emits the cursor `(created_at = 0x74, id = 0x31)`, and the follow-up page
built from that cursor is empty: `itemB` matches the filters yet appears on
neither page (a gap), contradicting the claimed no-gap property. -/
theorem keyset_pagination_gap :
    sortedByCreatedAtDesc [itemA, itemB] ∧
    (getItemsCore [itemA, itemB] noFilter none 1).items = [itemA] ∧
    (getItemsCore [itemA, itemB] noFilter none 1).hasMore = true ∧
    (getItemsCore [itemA, itemB] noFilter none 1).nextCursorData =
      some ⟨itemA.ID, itemA.CreatedAt⟩ ∧
    (getItemsCore [itemA, itemB] noFilter
      (some ⟨itemA.ID, itemA.CreatedAt⟩) 1).items = [] ∧
    (getItemsCore [itemA, itemB] noFilter
      (some ⟨itemA.ID, itemA.CreatedAt⟩) 1).hasMore = false ∧
    rowMatches noFilter none itemB = true ∧
    itemB ∉ (getItemsCore [itemA, itemB] noFilter none 1).items ∧
    itemB ∉ (getItemsCore [itemA, itemB] noFilter
      (some ⟨itemA.ID, itemA.CreatedAt⟩) 1).items := by
  refine ⟨?_, ?_⟩
  · simp [sortedByCreatedAtDesc, itemA, itemB, ltBytes]
  · decide

/-! ## Item service state: store plus read cache (src/utils/item_service.go)

The ristretto cache is modelled as a map from identifier to item snapshot; the
claims below are about sequential executions, so TTL expiry and the admission
buffer are not modelled (C4 concerns `Clear`, which empties the map). The
gorm store hooks are modelled per their documented conventions: `Create`
assigns the generated identifier and sets both timestamps, `Save` updates all
fields of the row with the matching primary key and refreshes `UpdatedAt`,
and `Delete` on a model with a `DeletedAt` field soft-deletes.  Store-level
failures (connection errors) are outside the model; `First`'s record-not-found
and `Delete`'s zero-rows-affected outcomes are modelled. -/

/-- `ItemService` state: the `items` table plus the read cache. -/
structure SvcState where
  table : List Item
  cache : List (List Nat × Item)
deriving DecidableEq

/-- `models.CreateItemRequest`. -/
structure CreateItemRequest where
  Name : List Nat
  Stock : Int
  Price : Int
deriving DecidableEq

/-- `models.UpdateItemRequest`: optional partial-patch fields. -/
structure UpdateItemRequest where
  Name : Option (List Nat)
  Stock : Option Int
  Price : Option Int
deriving DecidableEq

/-- Error outcomes of the service operations that the claims mention. -/
inductive ServiceError where
  | notFound
  | invalidCursor
deriving DecidableEq

/-- `db.Where("id = ?", id).First(item)`: first live row with the identifier
(gorm adds `deleted_at IS NULL`). -/
def findLive : List Item → List Nat → Option Item
  | [], _ => none
  | it :: t, id => if it.ID = id ∧ it.DeletedAt = none then some it else findLive t id

/-- `getFromCache` (lines 259-270). -/
def getFromCache (s : SvcState) (id : List Nat) : Option Item :=
  alookup s.cache id

/-- `setCache` (lines 272-278); the TTL is not observable in the sequential model. -/
def setCache (s : SvcState) (id : List Nat) (it : Item) : SvcState :=
  { s with cache := aset s.cache id it }

/-- `invalidateCache` (lines 280-286): `cache.Clear()` removes every entry. -/
def invalidateCache (s : SvcState) : SvcState :=
  { s with cache := [] }

/-- `CreateItem` (lines 60-74): build the row from the request, persist it
(gorm assigns the identifier `newId` and creation/modification timestamps
`now`), then clear the cache. -/
def CreateItem (s : SvcState) (req : CreateItemRequest) (newId now : List Nat) :
    Item × SvcState :=
  let it : Item := ⟨newId, req.Name, req.Stock, req.Price, now, now, none⟩
  (it, invalidateCache { s with table := s.table ++ [it] })

/-- `db.Save(item)`: update all fields of the row with the matching key. -/
def saveItem (table : List Item) (it : Item) : List Item :=
  table.map (fun r => if r.ID = it.ID then it else r)

/-- `UpdateItem` (lines 94-120): fetch the current row (`notFound` if absent),
overwrite exactly the fields present in the request, persist with `db.Save`
(which refreshes `UpdatedAt` to `now`), then clear the cache. -/
def UpdateItem (s : SvcState) (id : List Nat) (req : UpdateItemRequest)
    (now : List Nat) : Except ServiceError (Item × SvcState) :=
  match findLive s.table id with
  | none => .error .notFound
  | some old =>
    let patched : Item :=
      { old with
        Name := req.Name.getD old.Name
        Stock := req.Stock.getD old.Stock
        Price := req.Price.getD old.Price }
    let saved : Item := { patched with UpdatedAt := now }
    .ok (saved, invalidateCache { s with table := saveItem s.table saved })

/-- `DeleteItem` (lines 122-134): soft-delete by identifier; `notFound` when
zero rows were affected (cache untouched in that case), otherwise clear the
cache. -/
def DeleteItem (s : SvcState) (id : List Nat) (now : List Nat) :
    Except ServiceError SvcState :=
  let affected :=
    (s.table.filter (fun r => decide (r.ID = id) && decide (r.DeletedAt = none))).length
  if affected = 0 then .error .notFound
  else
    .ok (invalidateCache
      { s with table := s.table.map (fun r =>
          if r.ID = id ∧ r.DeletedAt = none then { r with DeletedAt := some now } else r) })

/-- `GetItem` (lines 76-92): serve from cache on a hit; otherwise fetch the
live row (`notFound` if absent) and populate the cache. -/
def GetItem (s : SvcState) (id : List Nat) : Except ServiceError (Item × SvcState) :=
  match getFromCache s id with
  | some it => .ok (it, s)
  | none =>
    match findLive s.table id with
    | none => .error .notFound
    | some it => .ok (it, setCache s id it)

theorem updateItem_cache_empty (s : SvcState) (id : List Nat)
    (req : UpdateItemRequest) (now : List Nat) (i : Item) (s' : SvcState)
    (h : UpdateItem s id req now = .ok (i, s')) : s'.cache = [] := by
  unfold UpdateItem at h
  cases hf : findLive s.table id with
  | none => rw [hf] at h; exact absurd h (by simp)
  | some old =>
    rw [hf] at h
    simp only [Except.ok.injEq, Prod.mk.injEq] at h
    rw [← h.2]
    rfl

theorem deleteItem_cache_empty (s : SvcState) (id now : List Nat) (s' : SvcState)
    (h : DeleteItem s id now = .ok s') : s'.cache = [] := by
  simp only [DeleteItem] at h
  split at h
  · exact absurd h (by simp)
  · simp only [Except.ok.injEq] at h
    rw [← h]
    rfl

/-- C4. Every successful create, update or delete wholesale-clears the read
cache: in the post state every cache lookup misses, so a subsequent read by
any identifier cannot observe pre-mutation cached data. -/
theorem mutations_clear_cache (s : SvcState) (req : CreateItemRequest)
    (nid now unow dnow : List Nat) (uid : List Nat) (ureq : UpdateItemRequest)
    (did : List Nat) :
    (∀ k, getFromCache (CreateItem s req nid now).2 k = none) ∧
    (∀ ui us k, UpdateItem s uid ureq unow = .ok (ui, us) → getFromCache us k = none) ∧
    (∀ ds k, DeleteItem s did dnow = .ok ds → getFromCache ds k = none) := by
  refine ⟨fun k => rfl, fun ui us k hu => ?_, fun ds k hd => ?_⟩
  · rw [getFromCache, updateItem_cache_empty s uid ureq unow ui us hu]
    rfl
  · rw [getFromCache, deleteItem_cache_empty s did dnow ds hd]
    rfl

/-- The single live row of the C4/C5 states. -/
def itemC : Item := ⟨[105], [110], 1, 2, [99], [98], none⟩

/-- `itemC` after an empty-patch update saved at time `[99]`. -/
def itemCAt99 : Item := ⟨[105], [110], 1, 2, [99], [99], none⟩

/-- `itemC` after an empty-patch update saved at time `[100]`. -/
def itemCAt100 : Item := ⟨[105], [110], 1, 2, [99], [100], none⟩

/-- `itemC` soft-deleted at time `[101]`. -/
def itemCDel : Item := ⟨[105], [110], 1, 2, [99], [98], some [101]⟩

/-- A service state whose cache holds a pre-mutation entry for `itemC`. -/
def svc0 : SvcState := ⟨[itemC], [([105], itemC)]⟩

/-- Witness for C4: after a successful empty-patch update and a successful
delete of `itemC` (and any create), the cache lookup for its identifier — the
very key cached before the mutation — misses. -/
theorem mutations_clear_cache_witness :
    getFromCache (CreateItem svc0 ⟨[120], 3, 4⟩ [106] [100]).2 [105] = none ∧
    getFromCache (⟨[itemCAt100], []⟩ : SvcState) [105] = none ∧
    getFromCache (⟨[itemCDel], []⟩ : SvcState) [105] = none := by
  have h := mutations_clear_cache svc0 ⟨[120], 3, 4⟩ [106] [100] [100] [101] [105]
    ⟨none, none, none⟩ [105]
  exact ⟨h.1 [105], h.2.1 itemCAt100 ⟨[itemCAt100], []⟩ [105] (by rfl),
    h.2.2 ⟨[itemCDel], []⟩ [105] (by rfl)⟩

/-- C5 as written fails on the code: an update with no fields set does alter
the modification timestamp, because `db.Save` refreshes `UpdatedAt`.  With
`itemC` stored carrying `UpdatedAt = [98]`, the empty patch at save time
`[99]` returns the row with `UpdatedAt = [99] ≠ [98]`. -/
theorem update_empty_patch_bumps_updatedAt :
    itemC.UpdatedAt = [98] ∧
    UpdateItem ⟨[itemC], []⟩ [105] ⟨none, none, none⟩ [99] =
      .ok (itemCAt99, ⟨[itemCAt99], []⟩) ∧
    itemCAt99.UpdatedAt ≠ itemC.UpdatedAt :=
  ⟨by decide, by rfl, by decide⟩

/-- C5 amended. Update applies exactly the fields present in the partial
request (unset fields retain current values), never touches the identifier or
the creation timestamp, and sets the modification timestamp to the save time;
an update with no fields set therefore returns the item unchanged except for
the refreshed modification timestamp. -/
theorem update_partial_patch (s : SvcState) (id : List Nat)
    (req : UpdateItemRequest) (now : List Nat) (old i : Item) (s' : SvcState)
    (hfind : findLive s.table id = some old)
    (hupd : UpdateItem s id req now = .ok (i, s')) :
    i.ID = old.ID ∧ i.CreatedAt = old.CreatedAt ∧ i.UpdatedAt = now ∧
    (req.Name = none → i.Name = old.Name) ∧
    (∀ v, req.Name = some v → i.Name = v) ∧
    (req.Stock = none → i.Stock = old.Stock) ∧
    (∀ v, req.Stock = some v → i.Stock = v) ∧
    (req.Price = none → i.Price = old.Price) ∧
    (∀ v, req.Price = some v → i.Price = v) := by
  unfold UpdateItem at hupd
  rw [hfind] at hupd
  simp only [Except.ok.injEq, Prod.mk.injEq] at hupd
  rw [← hupd.1]
  refine ⟨rfl, rfl, rfl, ?_, ?_, ?_, ?_, ?_, ?_⟩ <;>
    first
      | (intro hn; simp [hn])
      | (intro v hv; simp [hv])

/-- Witness for C5 amended: the empty patch on `itemC` at save time `[99]`. -/
theorem update_partial_patch_witness :
    itemCAt99.ID = itemC.ID ∧
    itemCAt99.CreatedAt = itemC.CreatedAt ∧
    itemCAt99.UpdatedAt = [99] ∧
    ((⟨none, none, none⟩ : UpdateItemRequest).Name = none →
      itemCAt99.Name = itemC.Name) ∧
    (∀ v, (⟨none, none, none⟩ : UpdateItemRequest).Name = some v →
      itemCAt99.Name = v) ∧
    ((⟨none, none, none⟩ : UpdateItemRequest).Stock = none →
      itemCAt99.Stock = itemC.Stock) ∧
    (∀ v, (⟨none, none, none⟩ : UpdateItemRequest).Stock = some v →
      itemCAt99.Stock = v) ∧
    ((⟨none, none, none⟩ : UpdateItemRequest).Price = none →
      itemCAt99.Price = itemC.Price) ∧
    (∀ v, (⟨none, none, none⟩ : UpdateItemRequest).Price = some v →
      itemCAt99.Price = v) :=
  update_partial_patch ⟨[itemC], []⟩ [105] ⟨none, none, none⟩ [99] itemC
    itemCAt99 ⟨[itemCAt99], []⟩ (by decide) (by rfl)

/-! ## Cursor wire format (src/utils/item_service.go lines 294-314)

`encodeCursor` is `base64.StdEncoding.EncodeToString(json.Marshal(cursor))`;
`decodeCursor` is the inverse composition.  Both standard-library layers are
modelled at the byte level:

* base64: the standard alphabet with `=` padding; like Go's non-strict
  decoder, trailing padding bits are discarded rather than rejected (Go's
  newline skipping is not modelled — no claim concerns it);
* JSON: Go's `encoding/json` string escaping (`\"`, `\\`, `\n`, `\r`, `\t`,
  other control bytes and the HTML-escaped `<`, `>`, `&` as lowercase
  `\u00xx`); bytes ≥ 0x80 — well-formed multi-byte text — pass through
  verbatim (Go's replacement of ill-formed UTF-8 is not modelled).
  `json.Unmarshal` is specified on the canonical output shape of
  `json.Marshal` for `CursorData` (the Go function accepts a superset:
  whitespace, reordered fields), with `\uXXXX` escapes accepted for ASCII
  values, which covers everything the encoder emits. -/

/-- Byte of the base64 alphabet character at index `n < 64`. -/
def b64char (n : Nat) : Nat :=
  if n < 26 then 65 + n
  else if n < 52 then 97 + (n - 26)
  else if n < 62 then 48 + (n - 52)
  else if n = 62 then 43
  else 47

/-- Index of a base64 alphabet byte, `none` for bytes outside the alphabet. -/
def b64val (c : Nat) : Option Nat :=
  if 65 ≤ c ∧ c ≤ 90 then some (c - 65)
  else if 97 ≤ c ∧ c ≤ 122 then some (26 + (c - 97))
  else if 48 ≤ c ∧ c ≤ 57 then some (52 + (c - 48))
  else if c = 43 then some 62
  else if c = 47 then some 63
  else none

/-- `base64.StdEncoding` encode: three bytes to four alphabet characters,
with `=` padding for a final one- or two-byte group. -/
def base64Encode : List Nat → List Nat
  | [] => []
  | [b1] => [b64char (b1 / 4), b64char (b1 % 4 * 16), 61, 61]
  | [b1, b2] => [b64char (b1 / 4), b64char (b1 % 4 * 16 + b2 / 16), b64char (b2 % 16 * 4), 61]
  | b1 :: b2 :: b3 :: rest =>
    b64char (b1 / 4) :: b64char (b1 % 4 * 16 + b2 / 16)
      :: b64char (b2 % 16 * 4 + b3 / 64) :: b64char (b3 % 64)
      :: base64Encode rest

/-- `base64.StdEncoding` decode: four characters to three bytes, padding only
in the final group; input whose length is not a multiple of four, or with a
character outside the alphabet, or with misplaced padding, is rejected. -/
def base64Decode : List Nat → Option (List Nat)
  | [] => some []
  | c1 :: c2 :: c3 :: c4 :: rest =>
    (b64val c1).bind (fun s1 =>
      (b64val c2).bind (fun s2 =>
        if c3 = 61 then
          if c4 = 61 ∧ rest = [] then some [s1 * 4 + s2 / 16] else none
        else
          (b64val c3).bind (fun s3 =>
            if c4 = 61 then
              if rest = [] then some [s1 * 4 + s2 / 16, s2 % 16 * 16 + s3 / 4] else none
            else
              (b64val c4).bind (fun s4 =>
                (base64Decode rest).map
                  (fun bs =>
                    (s1 * 4 + s2 / 16) :: (s2 % 16 * 16 + s3 / 4)
                      :: (s3 % 4 * 64 + s4) :: bs)))))
  | _ => none

theorem b64val_b64char : ∀ n : Nat, n < 64 → b64val (b64char n) = some n := by
  decide

theorem b64char_ne_pad : ∀ n : Nat, n < 64 → b64char n ≠ 61 := by
  decide

theorem base64_roundTrip : ∀ bs : List Nat, (∀ b ∈ bs, b < 256) →
    base64Decode (base64Encode bs) = some bs
  | [], _ => by simp [base64Encode, base64Decode]
  | [b1], h => by
    have hb1 : b1 < 256 := h b1 (by simp)
    have h1 : b1 / 4 < 64 := by omega
    have h2 : b1 % 4 * 16 < 64 := by omega
    simp [base64Encode, base64Decode, b64val_b64char _ h1, b64val_b64char _ h2]
    omega
  | [b1, b2], h => by
    have hb1 : b1 < 256 := h b1 (by simp)
    have hb2 : b2 < 256 := h b2 (by simp)
    have h1 : b1 / 4 < 64 := by omega
    have h2 : b1 % 4 * 16 + b2 / 16 < 64 := by omega
    have h3 : b2 % 16 * 4 < 64 := by omega
    simp [base64Encode, base64Decode, b64val_b64char _ h1, b64val_b64char _ h2,
      b64val_b64char _ h3, b64char_ne_pad _ h3]
    constructor
    · omega
    · omega
  | [b1, b2, b3], h => by
    have hb1 : b1 < 256 := h b1 (by simp)
    have hb2 : b2 < 256 := h b2 (by simp)
    have hb3 : b3 < 256 := h b3 (by simp)
    have h1 : b1 / 4 < 64 := by omega
    have h2 : b1 % 4 * 16 + b2 / 16 < 64 := by omega
    have h3 : b2 % 16 * 4 + b3 / 64 < 64 := by omega
    have h4 : b3 % 64 < 64 := by omega
    simp [base64Encode, base64Decode, b64val_b64char _ h1, b64val_b64char _ h2,
      b64val_b64char _ h3, b64val_b64char _ h4, b64char_ne_pad _ h3, b64char_ne_pad _ h4]
    refine ⟨by omega, by omega, by omega⟩
  | b1 :: b2 :: b3 :: b4 :: rest, h => by
    have hb1 : b1 < 256 := h b1 (by simp)
    have hb2 : b2 < 256 := h b2 (by simp)
    have hb3 : b3 < 256 := h b3 (by simp)
    have hrest : ∀ b ∈ b4 :: rest, b < 256 := by
      intro b hb
      refine h b ?_
      simp only [List.mem_cons] at hb ⊢
      tauto
    have h1 : b1 / 4 < 64 := by omega
    have h2 : b1 % 4 * 16 + b2 / 16 < 64 := by omega
    have h3 : b2 % 16 * 4 + b3 / 64 < 64 := by omega
    have h4 : b3 % 64 < 64 := by omega
    have ih := base64_roundTrip (b4 :: rest) hrest
    simp only [base64Encode, base64Decode, b64val_b64char _ h1, b64val_b64char _ h2,
      b64val_b64char _ h3, b64val_b64char _ h4, Option.some_bind]
    rw [if_neg (b64char_ne_pad _ h3), if_neg (b64char_ne_pad _ h4), ih]
    simp only [Option.map_some', Option.some.injEq, List.cons.injEq, and_true]
    refine ⟨by omega, by omega, by omega⟩

/-- Byte of the lowercase hex digit for `n < 16` (Go emits lowercase in
`\u00xx` escapes). -/
def hexDigit (n : Nat) : Nat :=
  if n < 10 then 48 + n else 87 + n

/-- Value of a hex digit byte (either case), `none` otherwise. -/
def hexVal (c : Nat) : Option Nat :=
  if 48 ≤ c ∧ c ≤ 57 then some (c - 48)
  else if 97 ≤ c ∧ c ≤ 102 then some (c - 87)
  else if 65 ≤ c ∧ c ≤ 70 then some (c - 55)
  else none

/-- Go `encoding/json` escaping of one string byte: `"` and `\` get a
backslash, `\n`/`\r`/`\t` their short escapes, the remaining control bytes
and the HTML-escaped `<`, `>`, `&` become `\u00xx`, and everything else
passes through verbatim. -/
def escByte (b : Nat) : List Nat :=
  if b = 34 then [92, 34]
  else if b = 92 then [92, 92]
  else if b = 10 then [92, 110]
  else if b = 13 then [92, 114]
  else if b = 9 then [92, 116]
  else if b < 32 ∨ b = 60 ∨ b = 62 ∨ b = 38 then
    [92, 117, 48, 48, hexDigit (b / 16), hexDigit (b % 16)]
  else [b]

/-- Escaped form of a whole string body. -/
def jsonEscape : List Nat → List Nat
  | [] => []
  | b :: t => escByte b ++ jsonEscape t

/-- Prepend a decoded byte to a string-parse result. -/
def consRes (b : Nat) : Option (List Nat × List Nat) → Option (List Nat × List Nat)
  | none => none
  | some (s, r) => some (b :: s, r)


/-- Decode a `\uXXXX` escape body: four hex digits, accepted for ASCII
values (which covers every `\u00xx` the encoder emits); returns the decoded
byte and the remaining input. -/
def readUEscape : List Nat → Option (Nat × List Nat)
  | h1 :: h2 :: h3 :: h4 :: rest3 =>
    match hexVal h1, hexVal h2, hexVal h3, hexVal h4 with
    | some v1, some v2, some v3, some v4 =>
      if v1 * 4096 + v2 * 256 + v3 * 16 + v4 < 128 then
        some (v1 * 4096 + v2 * 256 + v3 * 16 + v4, rest3)
      else none
    | _, _, _, _ => none
  | _ => none

/-- Decode one escape after a backslash: the single-character JSON escapes
and `\uXXXX`; returns the decoded byte and the remaining input. -/
def readEscape : List Nat → Option (Nat × List Nat)
  | [] => none
  | e :: rest2 =>
    if e = 34 then some (34, rest2)
    else if e = 92 then some (92, rest2)
    else if e = 47 then some (47, rest2)
    else if e = 110 then some (10, rest2)
    else if e = 114 then some (13, rest2)
    else if e = 116 then some (9, rest2)
    else if e = 98 then some (8, rest2)
    else if e = 102 then some (12, rest2)
    else if e = 117 then readUEscape rest2
    else none

/-- Fuel-indexed body of the JSON string parser: parse up to (and consuming)
the closing quote, decoding escapes via `readEscape`; the fuel only bounds
the recursion depth and one unit is spent per decoded byte. -/
def parseJSStringF : Nat → List Nat → Option (List Nat × List Nat)
  | _, [] => none
  | 0, _ :: _ => none
  | fuel + 1, b :: rest =>
    if b = 34 then some ([], rest)
    else if b = 92 then
      match readEscape rest with
      | none => none
      | some (v, rest2) => consRes v (parseJSStringF fuel rest2)
    else consRes b (parseJSStringF fuel rest)

/-- Parse a JSON string body; the input length bounds the number of decoded
bytes, so it is always enough fuel. -/
def parseJSString (l : List Nat) : Option (List Nat × List Nat) :=
  parseJSStringF l.length l

theorem hexVal_hexDigit : ∀ n : Nat, n < 16 → hexVal (hexDigit n) = some n := by
  decide

theorem readEscape_escByte (b : Nat) (hb : escByte b ≠ [b]) (l : List Nat) :
    readEscape ((escByte b).tail ++ l) = some (b, l) := by
  by_cases h34 : b = 34
  · simp [escByte, h34, readEscape]
  · by_cases h92 : b = 92
    · simp [escByte, h34, h92, readEscape]
    · by_cases h10 : b = 10
      · simp [escByte, h34, h92, h10, readEscape]
      · by_cases h13 : b = 13
        · simp [escByte, h34, h92, h10, h13, readEscape]
        · by_cases h9 : b = 9
          · simp [escByte, h34, h92, h10, h13, h9, readEscape]
          · by_cases hu : b < 32 ∨ b = 60 ∨ b = 62 ∨ b = 38
            · have hdivlt : b / 16 < 16 := by omega
              have hmodlt : b % 16 < 16 := by omega
              have h48 : hexVal 48 = some 0 := by decide
              have hd1 := hexVal_hexDigit _ hdivlt
              have hd2 := hexVal_hexDigit _ hmodlt
              simp only [escByte, h34, h92, h10, h13, h9, hu, if_false, if_true,
                List.tail_cons, List.cons_append]
              rw [readEscape]
              norm_num
              rw [readUEscape, h48, hd1, hd2]
              have hlt : 0 * 4096 + 0 * 256 + b / 16 * 16 + b % 16 < 128 := by omega
              dsimp only
              rw [if_pos hlt]
              simp only [Option.some.injEq, Prod.mk.injEq, and_true]
              omega
            · exact absurd (by simp [escByte, h34, h92, h10, h13, h9, hu]) hb

theorem parseJSStringF_escape : ∀ (s : List Nat) (rest : List Nat) (fuel : Nat),
    s.length + 1 ≤ fuel →
    parseJSStringF fuel (jsonEscape s ++ 34 :: rest) = some (s, rest) := by
  intro s
  induction s with
  | nil =>
    intro rest fuel hf
    match fuel, hf with
    | f + 1, _ => simp [jsonEscape, parseJSStringF]
  | cons b t ih =>
    intro rest fuel hf
    match fuel, hf with
    | f + 1, hf =>
      have hft : t.length + 1 ≤ f := by
        simp only [List.length_cons] at hf
        omega
      by_cases hpass : escByte b = [b]
      · have hb34 : b ≠ 34 := by
          intro hb
          rw [hb] at hpass
          simp [escByte] at hpass
        have hb92 : b ≠ 92 := by
          intro hb
          rw [hb] at hpass
          simp [escByte] at hpass
        rw [jsonEscape, hpass, List.singleton_append, List.cons_append]
        rw [parseJSStringF]
        rw [if_neg hb34, if_neg hb92]
        rw [ih rest f hft]
        rfl
      · have hhead : escByte b = 92 :: (escByte b).tail := by
          by_cases h34 : b = 34
          · simp [escByte, h34]
          · by_cases h92 : b = 92
            · simp [escByte, h34, h92]
            · by_cases h10 : b = 10
              · simp [escByte, h34, h92, h10]
              · by_cases h13 : b = 13
                · simp [escByte, h34, h92, h10, h13]
                · by_cases h9 : b = 9
                  · simp [escByte, h34, h92, h10, h13, h9]
                  · by_cases hu : b < 32 ∨ b = 60 ∨ b = 62 ∨ b = 38
                    · simp [escByte, h34, h92, h10, h13, h9, hu]
                    · exact absurd (by simp [escByte, h34, h92, h10, h13, h9, hu]) hpass
        rw [jsonEscape, List.append_assoc, hhead, List.cons_append]
        rw [parseJSStringF]
        rw [if_neg (by norm_num : (92 : Nat) ≠ 34), if_pos rfl]
        try simp only [List.append_eq]
        rw [readEscape_escByte b hpass]
        dsimp only
        rw [ih rest f hft]
        rfl

theorem jsonEscape_length_ge (s : List Nat) : s.length ≤ (jsonEscape s).length := by
  induction s with
  | nil => simp [jsonEscape]
  | cons b t ih =>
    have hesc : 1 ≤ (escByte b).length := by
      by_cases h34 : b = 34
      · simp [escByte, h34]
      · by_cases h92 : b = 92
        · simp [escByte, h34, h92]
        · by_cases h10 : b = 10
          · simp [escByte, h34, h92, h10]
          · by_cases h13 : b = 13
            · simp [escByte, h34, h92, h10, h13]
            · by_cases h9 : b = 9
              · simp [escByte, h34, h92, h10, h13, h9]
              · by_cases hu : b < 32 ∨ b = 60 ∨ b = 62 ∨ b = 38
                · simp [escByte, h34, h92, h10, h13, h9, hu]
                · simp [escByte, h34, h92, h10, h13, h9, hu]
    simp only [jsonEscape, List.length_cons, List.length_append]
    omega

theorem parseJSString_escape (s : List Nat) (rest : List Nat) :
    parseJSString (jsonEscape s ++ 34 :: rest) = some (s, rest) := by
  refine parseJSStringF_escape s rest _ ?_
  have h1 := jsonEscape_length_ge s
  simp only [List.length_append, List.length_cons]
  omega

/-- `json.Marshal` of a `CursorData` value: the canonical object form
`{"id":"…","created_at":"…"}` with both field values escaped. -/
def jsonMarshalCursor (c : CursorData) : List Nat :=
  [123, 34, 105, 100, 34, 58, 34] ++ jsonEscape c.ID
    ++ [34, 44, 34, 99, 114, 101, 97, 116, 101, 100, 95, 97, 116, 34, 58, 34]
    ++ jsonEscape c.CreatedAt ++ [34, 125]

/-- `json.Unmarshal` into `CursorData`, specified on the canonical
`json.Marshal` output shape (the Go function accepts a superset: whitespace,
reordered or extra fields). -/
def jsonUnmarshalCursor (bs : List Nat) : Option CursorData :=
  match bs with
  | 123 :: 34 :: 105 :: 100 :: 34 :: 58 :: 34 :: rest =>
    match parseJSString rest with
    | none => none
    | some (idv, rest2) =>
      match rest2 with
      | 44 :: 34 :: 99 :: 114 :: 101 :: 97 :: 116 :: 101 :: 100 :: 95 :: 97 :: 116
          :: 34 :: 58 :: 34 :: rest3 =>
        match parseJSString rest3 with
        | none => none
        | some (cav, rest4) => if rest4 = [125] then some ⟨idv, cav⟩ else none
      | _ => none
  | _ => none

/-- `encodeCursor` (lines 294-300): JSON-marshal, then base64-encode. -/
def encodeCursor (c : CursorData) : List Nat :=
  base64Encode (jsonMarshalCursor c)

/-- `decodeCursor` (lines 302-314): base64-decode, then JSON-unmarshal;
either layer failing fails the whole decode. -/
def decodeCursor (s : List Nat) : Option CursorData :=
  match base64Decode s with
  | none => none
  | some bs => jsonUnmarshalCursor bs

theorem escByte_lt (b : Nat) (hb : b < 256) : ∀ x ∈ escByte b, x < 256 := by
  intro x hx
  by_cases h34 : b = 34
  · simp [escByte, h34] at hx
    omega
  · by_cases h92 : b = 92
    · simp [escByte, h34, h92] at hx
      omega
    · by_cases h10 : b = 10
      · simp [escByte, h34, h92, h10] at hx
        omega
      · by_cases h13 : b = 13
        · simp [escByte, h34, h92, h10, h13] at hx
          omega
        · by_cases h9 : b = 9
          · simp [escByte, h34, h92, h10, h13, h9] at hx
            omega
          · by_cases hu : b < 32 ∨ b = 60 ∨ b = 62 ∨ b = 38
            · simp [escByte, h34, h92, h10, h13, h9, hu, hexDigit] at hx
              have hd : b / 16 < 16 := by omega
              have hm : b % 16 < 16 := by omega
              rcases hx with h | h | h | h | h | h
              all_goals try subst h
              all_goals first
                | omega
                | (split <;> omega)
            · simp [escByte, h34, h92, h10, h13, h9, hu] at hx
              omega

theorem jsonEscape_lt (s : List Nat) (hs : ∀ b ∈ s, b < 256) :
    ∀ x ∈ jsonEscape s, x < 256 := by
  induction s with
  | nil => simp [jsonEscape]
  | cons b t ih =>
    intro x hx
    rw [jsonEscape] at hx
    rcases List.mem_append.mp hx with h | h
    · exact escByte_lt b (hs b (by simp)) x h
    · exact ih (fun y hy => hs y (by simp [hy])) x h

theorem jsonMarshalCursor_lt (c : CursorData)
    (hid : ∀ b ∈ c.ID, b < 256) (hca : ∀ b ∈ c.CreatedAt, b < 256) :
    ∀ x ∈ jsonMarshalCursor c, x < 256 := by
  intro x hx
  rw [jsonMarshalCursor] at hx
  simp only [List.append_assoc, List.mem_append, List.mem_cons, List.mem_singleton,
    List.not_mem_nil, or_false] at hx
  rcases hx with h | h | h | h | h
  · omega
  · exact jsonEscape_lt c.ID hid x h
  · omega
  · exact jsonEscape_lt c.CreatedAt hca x h
  · omega

theorem jsonUnmarshal_jsonMarshal (c : CursorData) :
    jsonUnmarshalCursor (jsonMarshalCursor c) = some c := by
  rw [jsonMarshalCursor]
  simp only [List.append_assoc, List.cons_append, List.nil_append]
  rw [jsonUnmarshalCursor]
  rw [parseJSString_escape]
  dsimp only
  rw [parseJSString_escape]
  rfl

/-- C8. Encoding any cursor value (identifier string and creation-timestamp
string, as byte strings) to the opaque wire form and decoding it back yields
the original pair exactly. -/
theorem cursor_roundTrip (c : CursorData)
    (hid : ∀ b ∈ c.ID, b < 256) (hca : ∀ b ∈ c.CreatedAt, b < 256) :
    decodeCursor (encodeCursor c) = some c := by
  rw [encodeCursor, decodeCursor,
    base64_roundTrip (jsonMarshalCursor c) (jsonMarshalCursor_lt c hid hca)]
  exact jsonUnmarshal_jsonMarshal c

/-- Witness for C8: the concrete cursor `("a", "b")` survives the round trip. -/
theorem cursor_roundTrip_witness :
    decodeCursor (encodeCursor ⟨[97], [98]⟩) = some ⟨[97], [98]⟩ :=
  cursor_roundTrip ⟨[97], [98]⟩ (by decide) (by decide)

/-- `models.PaginationRequest`: requested limit and opaque cursor string
(empty string when absent, as in Go). -/
structure PaginationRequest where
  Limit : Int
  Cursor : List Nat
deriving DecidableEq

/-- `models.SortRequest`. -/
structure SortRequest where
  SortBy : String
  SortOrder : String
deriving DecidableEq

/-- `models.PaginatedResponse` on the wire: the cursor in its encoded form
(empty when absent, as in Go). -/
structure PaginatedResponse where
  Items : List Item
  NextCursor : List Nat
  HasMore : Bool
  Total : Nat
deriving DecidableEq

/-- Wire form of an engine result: the next-page cursor of the last retained
row is encoded with `encodeCursor` (lines 198-204). -/
def toResponse (r : ListResult) : PaginatedResponse :=
  ⟨r.items,
    match r.nextCursorData with
    | some cd => encodeCursor cd
    | none => [],
    r.hasMore, r.total⟩

/-- `GetItems` (lines 136-212) at the wire level: when a cursor string is
supplied it is decoded first, a decode failure failing the whole call with
the invalid-cursor error (lines 173-181, `invalid cursor: %w`); otherwise
the engine runs with the decoded cursor (or none).  The sort
parameter only selects the scan order of `rows` (the `ORDER BY` clause), so
it does not appear here; `rows` is already in scan order. -/
def GetItems (rows : List Item) (f : FilterRequest) (p : PaginationRequest) :
    Except ServiceError PaginatedResponse :=
  if p.Cursor = [] then .ok (toResponse (getItemsCore rows f none p.Limit))
  else
    match decodeCursor p.Cursor with
    | none => .error .invalidCursor
    | some cd => .ok (toResponse (getItemsCore rows f (some cd) p.Limit))

/-- C9. A list request carrying a non-empty cursor string that does not
decode fails with the validation error, never silently resetting to the
first page; the decoder is a function, so the failure is deterministic. -/
theorem invalid_cursor_rejected (rows : List Item) (f : FilterRequest)
    (p : PaginationRequest) (h1 : p.Cursor ≠ []) (h2 : decodeCursor p.Cursor = none) :
    GetItems rows f p = .error .invalidCursor := by
  rw [GetItems, if_neg h1, h2]

/-- Witness for C9: the one-byte cursor `"%"` is not valid base64 and is
rejected on the empty store. -/
theorem invalid_cursor_rejected_witness :
    GetItems [] ⟨[], none, none, none⟩ ⟨10, [37]⟩ =
      Except.error ServiceError.invalidCursor :=
  invalid_cursor_rejected [] ⟨[], none, none, none⟩ ⟨10, [37]⟩ (by decide) (by decide)

/-! ## The list endpoint of the HTTP controller

The `controllers` package lives in the second document of
`src/migrations/002_create_items_table.sql`; its `GetItems` handler binds and
validates the three query-parameter structs with `ShouldBindQuery`, applies
the defaults, calls the service and maps its error to a single 500 category.
The binding predicates below are the validator's checks for the binding tags
declared on the request structs in `models` (second document of
`src/README.md`). -/

/-- `ShouldBindQuery` validation of `models.PaginationRequest` against its
binding tags (`limit`: `omitempty,min=1,max=100`): `omitempty` skips the zero
value, any other value outside `[1,100]` fails binding with
400 `Invalid pagination parameters` (controller lines 277-286). -/
def validPagination (p : PaginationRequest) : Bool :=
  decide (p.Limit = 0) || (decide (1 ≤ p.Limit) && decide (p.Limit ≤ 100))

/-- `ShouldBindQuery` validation of `models.FilterRequest` against its
binding tags (`min_stock`, `min_price`, `max_price`: `omitempty,min=0`; a
`nil` pointer is skipped); a failure is 400 `Invalid filter parameters`
(controller lines 289-298). -/
def validFilters (f : FilterRequest) : Bool :=
  (match f.MinStock with | none => true | some v => decide (0 ≤ v))
  && (match f.MinPrice with | none => true | some v => decide (0 ≤ v))
  && (match f.MaxPrice with | none => true | some v => decide (0 ≤ v))

/-- Validator check for the binding tag
`sort_by`: `omitempty,oneof=name stock price created_at`. -/
def validSortField (s : String) : Bool :=
  decide (s = "") || decide (s = "name") || decide (s = "stock")
    || decide (s = "price") || decide (s = "created_at")

/-- Validator check for the binding tag `sort_order`: `omitempty,oneof=asc desc`. -/
def validSortOrder (s : String) : Bool :=
  decide (s = "") || decide (s = "asc") || decide (s = "desc")

/-- `ShouldBindQuery` validation of `models.SortRequest`; a failure is
400 `Invalid sort parameters` (controller lines 301-310). -/
def validSort (sr : SortRequest) : Bool :=
  validSortField sr.SortBy && validSortOrder sr.SortOrder

/-- Outcomes the controller's list endpoint reports to callers: the three
400 binding errors (`Invalid pagination parameters`, `Invalid filter
parameters`, `Invalid sort parameters`) and the single 500
`Failed to get items` that any service error is mapped to. -/
inductive ApiError where
  | invalidPagination
  | invalidFilters
  | invalidSort
  | failedToGetItems
deriving DecidableEq

/-- The controller's `GetItems` handler (controller lines 275-335): bind and
validate the pagination, filter and sort parameters in that order, each
failure answered as a 400 validation error before the service (and hence the
store) is consulted; then apply the defaults (`Limit` 0 becomes 10 at lines
313-315; empty `SortBy`/`SortOrder` become `created_at`/`desc` at lines
316-321 — the sort only selects the scan order of `rows`, see `GetItems`,
so it has no further representation here), call the service, and surface any
service error as the single 500 category (lines 324-332). -/
def getItemsHandler (rows : List Item) (p : PaginationRequest)
    (f : FilterRequest) (sr : SortRequest) : Except ApiError PaginatedResponse :=
  if validPagination p = false then .error .invalidPagination
  else if validFilters f = false then .error .invalidFilters
  else if validSort sr = false then .error .invalidSort
  else
    let p2 : PaginationRequest := if p.Limit = 0 then ⟨10, p.Cursor⟩ else p
    match GetItems rows f p2 with
    | .error _ => .error .failedToGetItems
    | .ok r => .ok r

/-- C6. A list request whose sort field is non-empty and outside
`{name, stock, price, created_at}`, or whose sort order is non-empty and
outside `{asc, desc}` (the rest of the request being well-formed), fails
with the sort validation error — for every store contents, so no store
query result can influence it and no silent fallback happens. -/
theorem invalid_sort_rejected (p : PaginationRequest) (f : FilterRequest)
    (sr : SortRequest)
    (hp : validPagination p = true) (hf : validFilters f = true)
    (hs : (sr.SortBy ≠ "" ∧ sr.SortBy ≠ "name" ∧ sr.SortBy ≠ "stock" ∧
            sr.SortBy ≠ "price" ∧ sr.SortBy ≠ "created_at") ∨
          (sr.SortOrder ≠ "" ∧ sr.SortOrder ≠ "asc" ∧ sr.SortOrder ≠ "desc")) :
    ∀ rows : List Item, getItemsHandler rows p f sr = .error .invalidSort := by
  intro rows
  have hvs : validSort sr = false := by
    rcases hs with ⟨h1, h2, h3, h4, h5⟩ | ⟨h1, h2, h3⟩
    · simp [validSort, validSortField, h1, h2, h3, h4, h5]
    · simp [validSort, validSortOrder, h1, h2, h3]
  rw [getItemsHandler, if_neg (by rw [hp]; simp), if_neg (by rw [hf]; simp),
    if_pos hvs]

/-- Witness for C6: `sort_by=invalid_field` on an otherwise default request
is rejected against a concrete store. -/
theorem invalid_sort_rejected_witness :
    getItemsHandler [itemC] ⟨0, []⟩ ⟨[], none, none, none⟩ ⟨"invalid_field", "asc"⟩ =
      Except.error ApiError.invalidSort :=
  invalid_sort_rejected ⟨0, []⟩ ⟨[], none, none, none⟩ ⟨"invalid_field", "asc"⟩
    (by decide) (by decide) (by simp) [itemC]

/-- C7. A requested limit of 0 behaves exactly like the default page size 10
(for every store, filters, sort and cursor: the handler maps 0 to 10 before
calling the service), and any negative limit or limit above 100 fails with
the pagination validation error for every store — never silently accepted
nor replaced by the default. -/
theorem limit_zero_default_and_invalid_rejected :
    (∀ (rows : List Item) (f : FilterRequest) (sr : SortRequest) (c : List Nat),
      getItemsHandler rows ⟨0, c⟩ f sr = getItemsHandler rows ⟨10, c⟩ f sr) ∧
    (∀ (rows : List Item) (p : PaginationRequest) (f : FilterRequest) (sr : SortRequest),
      p.Limit < 0 ∨ 100 < p.Limit →
      getItemsHandler rows p f sr = .error .invalidPagination) := by
  constructor
  · intro rows f sr c
    have h0 : validPagination ⟨0, c⟩ = true := by simp [validPagination]
    have h10 : validPagination ⟨10, c⟩ = true := by simp [validPagination]
    rw [getItemsHandler, getItemsHandler, h0, h10]
    rfl
  · intro rows p f sr hbad
    have hvp : validPagination p = false := by
      rcases hbad with h | h
      · simp [validPagination]
        omega
      · simp [validPagination]
        omega
    rw [getItemsHandler, if_pos hvp]

/-- Witness for C7: limit 0 equals limit 10 on a concrete request, and the
concrete limits -1 and 101 are rejected. -/
theorem limit_zero_default_and_invalid_rejected_witness :
    getItemsHandler [itemC] ⟨0, []⟩ ⟨[], none, none, none⟩ ⟨"", ""⟩ =
      getItemsHandler [itemC] ⟨10, []⟩ ⟨[], none, none, none⟩ ⟨"", ""⟩ ∧
    getItemsHandler [itemC] ⟨-1, []⟩ ⟨[], none, none, none⟩ ⟨"", ""⟩ =
      Except.error ApiError.invalidPagination ∧
    getItemsHandler [itemC] ⟨101, []⟩ ⟨[], none, none, none⟩ ⟨"", ""⟩ =
      Except.error ApiError.invalidPagination :=
  ⟨limit_zero_default_and_invalid_rejected.1 [itemC] ⟨[], none, none, none⟩ ⟨"", ""⟩ [],
    limit_zero_default_and_invalid_rejected.2 [itemC] ⟨-1, []⟩ ⟨[], none, none, none⟩
      ⟨"", ""⟩ (by decide),
    limit_zero_default_and_invalid_rejected.2 [itemC] ⟨101, []⟩ ⟨[], none, none, none⟩
      ⟨"", ""⟩ (by decide)⟩
